import Mathlib

/-!
# gempbot: user configuration endpoint and emote history ledger

A shallow embedding of

* `services/api/server/config.go` (`createDefaultUserConfig`, `handleUserConfig`,
  `processConfig`, `writeJSON`),
* `pkg/store/emote_history.go` (`CreateEmoteAdd`, `GetEmoteAdded`, `GetEmoteHistory`),

followed by the theorems about them.

Conventions of the embedding.

* A Go slice is an `Option (List _)`: `none` is the `nil` slice (JSON `null`), `some []` the
  empty non-nil slice (JSON `[]`).
* A Go `error` result is an `Option GoError`: `none` is the `nil` error.
* The redis hash `userConfig`, the log of the calls to `subscribeChannelPoints` and the log of
  the calls to `unsubscribeChannelPoints` form the explicit state `Store`.
* `encoding/json`, the redis driver and GORM are libraries outside the repository.  The JSON
  codec is a parameter (`Json`); failures of the redis commands and of the unsubscription are
  inputs (`Faults`); GORM queries are given their SQL meaning on the list of table rows.
-/

namespace Gempbot

/-! ## Data model of `config.go` -/

/-- Go `error` values as far as the server code tells them apart: `redis.Nil` (the hash field
does not exist) and any other error, with its message. -/
inductive GoError where
  | redisNil
  | other (msg : String)
  deriving DecidableEq, Repr

/-- The method `Error()` of a Go error. -/
def GoError.Error : GoError → String
  | .redisNil => "redis: nil"
  | .other msg => msg

/-- Modelled from the spec: the type `dto.RewardType` is declared outside the available
sources; the spec describes it as the enumeration `{Bttv, Seventv, …}`. -/
inductive RewardType where
  | Bttv
  | Seventv
  | Other (name : String)
  deriving DecidableEq, Repr

/-- Modelled from the spec: the type `dto.EmoteChangeType` is declared outside the available
sources; the spec describes it as the enumeration `{Add, Remove-or-other}`. -/
inductive EmoteChangeType where
  | Add
  | Other (name : String)
  deriving DecidableEq, Repr

/-- Modelled from the spec: the constant `dto.EMOTE_ADD_ADD` is declared outside the available
sources; it is the change type `Add`. -/
def EMOTE_ADD_ADD : EmoteChangeType := EmoteChangeType.Add

/-- Modelled from the spec: the type `Redemption` is declared outside the available sources;
`createDefaultUserConfig` shows its fields `Title` and `Active`. -/
structure Redemption where
  Title : String
  Active : Bool
  deriving DecidableEq, Repr

/-- Modelled from the spec: the type `Redemptions` is declared outside the available sources;
the spec describes it as a mapping from reward type to `{title, active}`.  It is the list of
the configured rewards; the composite literal `Redemptions{Bttv: r}` is `[(Bttv, r)]`. -/
abbrev Redemptions := List (RewardType × Redemption)

/-- The struct `Protected`. -/
structure Protected where
  EditorFor : Option (List String)
  deriving DecidableEq, Repr

/-- The struct `UserConfig`. -/
structure UserConfig where
  Redemptions : Gempbot.Redemptions
  Editors : Option (List String)
  Protected : Gempbot.Protected
  deriving DecidableEq, Repr

/-- The zero value of `UserConfig` (`var oldConfig UserConfig`). -/
def UserConfig.zero : UserConfig :=
  { Redemptions := [], Editors := none, Protected := { EditorFor := none } }

/-- The function `createDefaultUserConfig`. -/
def createDefaultUserConfig : UserConfig :=
  { Redemptions := [(RewardType.Bttv, { Title := "Bttv emote", Active := false })]
    Editors := some []
    Protected := { EditorFor := some [] } }

/-- The values handed to `json.Marshal` by this file: a `UserConfig` or a string. -/
inductive Payload where
  | config (c : UserConfig)
  | text (s : String)
  deriving DecidableEq, Repr

/-- The two functions of `encoding/json` used by the file.  `Unmarshal` is decoding into a
zero-valued `UserConfig`. -/
structure Json where
  Marshal : Payload → Except GoError String
  Unmarshal : String → Except GoError UserConfig

/-- The two properties of `encoding/json` that the round-trip theorem relies on: decoding
the encoding of a document gives the document back, and the empty input is not a JSON
value. -/
structure Json.Lawful (J : Json) : Prop where
  unmarshal_marshal : ∀ c js, J.Marshal (Payload.config c) = Except.ok js →
    J.Unmarshal js = Except.ok c
  unmarshal_empty : ∀ c, J.Unmarshal "" ≠ Except.ok c

/-- The state the handlers act on: the redis hash `userConfig` (field = user identifier), the
users for which `subscribeChannelPoints` was called and the users for which
`unsubscribeChannelPoints` was called, oldest call first. -/
structure Store where
  userConfig : String → Option String
  subscribed : List String
  unsubscribed : List String

/-- Failures of the external collaborators during one request, each with the message of the
error it returns: the redis commands `HGET`, `HSET`, `HDEL` and the unsubscription. -/
structure Faults where
  hget : Option String
  hset : Option String
  hdel : Option String
  unsubscribe : Option String
  deriving DecidableEq, Repr

/-- No collaborator fails. -/
def Faults.none : Faults :=
  { hget := Option.none, hset := Option.none, hdel := Option.none, unsubscribe := Option.none }

/-- The call `s.store.Client.HGet("userConfig", field).Result()`: the value and the error.
A missing field is reported as `redis.Nil`. -/
def HGet (f : Faults) (s : Store) (field : String) : String × Option GoError :=
  match f.hget with
  | some msg => ("", some (GoError.other msg))
  | Option.none =>
    match s.userConfig field with
    | Option.none => ("", some GoError.redisNil)
    | some val => (val, Option.none)

/-- The call `s.store.Client.HSet("userConfig", field, value).Result()`: the new state and
the error. -/
def HSet (f : Faults) (s : Store) (field value : String) : Store × Option GoError :=
  match f.hset with
  | some msg => (s, some (GoError.other msg))
  | Option.none =>
    ({ s with userConfig := fun k => if k = field then some value else s.userConfig k },
      Option.none)

/-- The call `s.store.Client.HDel("userConfig", field).Result()`: the new state and the
error. -/
def HDel (f : Faults) (s : Store) (field : String) : Store × Option GoError :=
  match f.hdel with
  | some msg => (s, some (GoError.other msg))
  | Option.none =>
    ({ s with userConfig := fun k => if k = field then Option.none else s.userConfig k },
      Option.none)

/-- The call `s.subscribeChannelPoints(userID)`; it returns nothing. -/
def subscribeChannelPoints (s : Store) (userID : String) : Store :=
  { s with subscribed := s.subscribed ++ [userID] }

/-- The call `s.unsubscribeChannelPoints(userID)`: the new state and the error. -/
def unsubscribeChannelPoints (f : Faults) (s : Store) (userID : String) :
    Store × Option GoError :=
  ({ s with unsubscribed := s.unsubscribed ++ [userID] },
    f.unsubscribe.map GoError.other)

/-- The `Protected` value that `processConfig` saves, computed from the old document
(lines 114-117). -/
def protectedToSave (oldConfig : UserConfig) : Gempbot.Protected :=
  let prot := oldConfig.Protected
  if prot.EditorFor ≠ Option.none then { prot with EditorFor := some [] } else prot

/-- The function `processConfig`: the returned error and the state afterwards. -/
def processConfig (J : Json) (f : Faults) (s : Store) (userID : String) (body : String) :
    Option GoError × Store :=
  match HGet f s userID with
  | (val, err) =>
    let isNew : Bool := decide (err = some GoError.redisNil)
    if !isNew && decide (err ≠ Option.none) then (err, s)
    else
      match (if !isNew then J.Unmarshal val else Except.ok UserConfig.zero) with
      | Except.error e => (some e, s)
      | Except.ok oldConfig =>
        match J.Unmarshal body with
        | Except.error e => (some e, s)
        | Except.ok newConfig =>
          let configToSave : UserConfig :=
            { Redemptions := newConfig.Redemptions
              Editors := newConfig.Editors
              Protected := protectedToSave oldConfig }
          match J.Marshal (Payload.config configToSave) with
          | Except.error e => (some e, s)
          | Except.ok js =>
            match HSet f s userID js with
            | (s1, some e) => (some e, s1)
            | (s1, Option.none) =>
              if isNew then (Option.none, subscribeChannelPoints s1 userID)
              else (Option.none, s1)

/-- What a handler wrote to the `http.ResponseWriter`: status code and body. -/
structure Response where
  status : Nat
  body : String
  deriving DecidableEq, Repr

/-- The call `http.Error(w, msg, code)`. -/
def httpError (msg : String) (code : Nat) : Response :=
  { status := code, body := msg ++ "\n" }

/-- The function `writeJSON`. -/
def writeJSON (J : Json) (data : Payload) (code : Nat) : Response :=
  match J.Marshal data with
  | Except.error e => httpError e.Error 500
  | Except.ok js => { status := code, body := js }

/-- The constants `http.StatusOK`, `http.StatusBadRequest`, `http.StatusUnauthorized` and
`http.StatusInternalServerError`. -/
def StatusOK : Nat := 200

def StatusBadRequest : Nat := 400

def StatusUnauthorized : Nat := 401

def StatusInternalServerError : Nat := 500

/-- The constants `http.MethodGet`, `http.MethodPost` and `http.MethodDelete`. -/
def MethodGet : String := "GET"

def MethodPost : String := "POST"

def MethodDelete : String := "DELETE"

/-- An incoming request as far as `handleUserConfig` reads it: the method, the result of
`ioutil.ReadAll(r.Body)`, and the result of `s.authenticate(r)` (the identifier of the
authenticated user, `none` when authentication fails). -/
structure Request where
  Method : String
  Body : Except GoError String
  authUserID : Option String

/-- The function `handleUserConfig`: the response and the state afterwards.  A handler that
returns without writing answers with status 200 and an empty body. -/
def handleUserConfig (J : Json) (f : Faults) (s : Store) (r : Request) : Response × Store :=
  match r.authUserID with
  | Option.none => (httpError "bad authentication" StatusUnauthorized, s)
  | some userID =>
    if r.Method = MethodGet then
      match HGet f s userID with
      | (val, err) =>
        if err ≠ Option.none ∨ val = "" then
          (writeJSON J (Payload.config createDefaultUserConfig) StatusOK, s)
        else
          match J.Unmarshal val with
          | Except.error e =>
            (httpError ("can't recover config" ++ e.Error) StatusBadRequest, s)
          | Except.ok userConfig => (writeJSON J (Payload.config userConfig) StatusOK, s)
    else if r.Method = MethodPost then
      match r.Body with
      | Except.error e =>
        (httpError ("failed reading body" ++ e.Error) StatusInternalServerError, s)
      | Except.ok body =>
        match processConfig J f s userID body with
        | (some e, s1) =>
          (httpError ("failed processing config: " ++ e.Error) StatusBadRequest, s1)
        | (Option.none, s1) => (writeJSON J (Payload.text "") StatusOK, s1)
    else if r.Method = MethodDelete then
      match HDel f s userID with
      | (s1, some e) =>
        (httpError ("Failed deleting: " ++ e.Error) StatusInternalServerError, s1)
      | (s1, Option.none) =>
        match unsubscribeChannelPoints f s1 userID with
        | (s2, some e) =>
          (httpError ("Failed to unsubscribe" ++ e.Error) StatusInternalServerError, s2)
        | (s2, Option.none) => (writeJSON J (Payload.text "") StatusOK, s2)
    else ({ status := StatusOK, body := "" }, s)

/-- The sequence of `processConfig` calls for one user, each with its own collaborator
failures and body: the errors returned, in order, and the final state. -/
def processConfigs (J : Json) (userID : String) :
    Store → List (Faults × String) → List (Option GoError) × Store
  | s, [] => ([], s)
  | s, (f, body) :: rest =>
    let r := processConfig J f s userID body
    let rs := processConfigs J userID r.2 rest
    (r.1 :: rs.1, rs.2)

/-! ## A small executable codec and sample requests

The theorems hold for every codec.  To evaluate the handlers on concrete inputs, `sampleJson`
writes the documents of `sampleDocs` the way `json.Marshal` does and reads them back; like
`json.Unmarshal` it rejects the empty input. -/

/-- A JSON string without characters that need escaping. -/
def sampleQuote (s : String) : String := "\"" ++ s ++ "\""

/-- A slice of strings as JSON: `null` for the `nil` slice. -/
def sampleSlice : Option (List String) → String
  | Option.none => "null"
  | some l => "[" ++ String.intercalate "," (l.map sampleQuote) ++ "]"

/-- One entry of `Redemptions` as JSON. -/
def sampleRedemption (p : RewardType × Redemption) : String :=
  let name := match p.1 with
    | RewardType.Bttv => "Bttv"
    | RewardType.Seventv => "Seventv"
    | RewardType.Other n => n
  sampleQuote name ++ ":\x7b\"Title\":" ++ sampleQuote p.2.Title ++ ",\"Active\":" ++
    (if p.2.Active then "true" else "false") ++ "\x7d"

/-- A `UserConfig` as JSON. -/
def sampleRender (c : UserConfig) : String :=
  "\x7b\"Redemptions\":\x7b" ++ String.intercalate "," (c.Redemptions.map sampleRedemption) ++
    "\x7d,\"Editors\":" ++ sampleSlice c.Editors ++ ",\"Protected\":\x7b\"EditorFor\":" ++
    sampleSlice c.Protected.EditorFor ++ "\x7d\x7d"

/-- The documents that `sampleJson` encodes and decodes. -/
def sampleDocs : List UserConfig :=
  [[(RewardType.Bttv, { Title := "Bttv emote", Active := false })],
   [(RewardType.Bttv, { Title := "Add an emote", Active := true })]].flatMap fun r =>
  [some [], some ["alice"]].flatMap fun e =>
  [Option.none, some [], some ["streamer"], some ["victim"]].map fun p =>
    { Redemptions := r, Editors := e, Protected := { EditorFor := p } }

/-- The sample codec. -/
def sampleJson : Json where
  Marshal p :=
    match p with
    | Payload.text s => Except.ok (sampleQuote s)
    | Payload.config c =>
      if c ∈ sampleDocs then Except.ok (sampleRender c)
      else Except.error (GoError.other "json: unsupported value")
  Unmarshal js :=
    if js = "" then Except.error (GoError.other "unexpected end of JSON input")
    else
      match sampleDocs.find? (fun c => decide (sampleRender c = js)) with
      | some c => Except.ok c
      | Option.none => Except.error (GoError.other "invalid character")

/-- A store without any document. -/
def emptyStore : Store :=
  { userConfig := fun _ => Option.none, subscribed := [], unsubscribed := [] }

/-- A store that holds `val` for `userID` and nothing else. -/
def storeWith (userID val : String) : Store :=
  { userConfig := fun k => if k = userID then some val else Option.none
    subscribed := [], unsubscribed := [] }

/-- A document with a protected entry, as stored for a user who edits for `streamer`. -/
def storedDoc : UserConfig :=
  { Redemptions := [(RewardType.Bttv, { Title := "Bttv emote", Active := false })]
    Editors := some []
    Protected := { EditorFor := some ["streamer"] } }

/-- A submitted document that claims a protected entry. -/
def attackerDoc : UserConfig :=
  { Redemptions := [(RewardType.Bttv, { Title := "Add an emote", Active := true })]
    Editors := some ["alice"]
    Protected := { EditorFor := some ["victim"] } }

/-- The same submitted document without a protected entry. -/
def plainDoc : UserConfig :=
  { attackerDoc with Protected := { EditorFor := some [] } }

/-- A `GET`, `POST` or `DELETE` request of an authenticated user. -/
def requestOf (method userID body : String) : Request :=
  { Method := method, Body := Except.ok body, authUserID := some userID }

/-- The read of the stored value fails; the other collaborators work. -/
def readFails : Faults :=
  { hget := some "dial tcp 127.0.0.1:6379: connect: connection refused"
    hset := Option.none, hdel := Option.none, unsubscribe := Option.none }

/-! ## Data model of `emote_history.go` -/

/-- The struct `EmoteAdd` with the columns of the embedded `gorm.Model` that the queries use.
The field `Type` is written `Type_`; times are instants of the server clock. -/
structure EmoteAdd where
  ID : Nat
  CreatedAt : Nat
  UpdatedAt : Nat
  ChannelTwitchID : String
  Type_ : RewardType
  ChangeType : EmoteChangeType
  EmoteID : String
  deriving DecidableEq, Repr

/-- The table behind `db.Client`: its rows, in insertion order. -/
structure Database where
  emoteAdds : List EmoteAdd
  deriving DecidableEq, Repr

/-- The next value of the auto-increment primary key. -/
def nextID (db : Database) : Nat :=
  (db.emoteAdds.map EmoteAdd.ID).foldr max 0 + 1

/-- The function `CreateEmoteAdd`; `now` is the instant at which the row is inserted, written
by GORM to `CreatedAt` and `UpdatedAt`. -/
def CreateEmoteAdd (db : Database) (now : Nat) (channelTwitchID : String)
    (addType : RewardType) (emoteID : String) (emoteChangeType : EmoteChangeType) :
    Database :=
  let add : EmoteAdd :=
    { ID := nextID db, CreatedAt := now, UpdatedAt := now,
      ChannelTwitchID := channelTwitchID, Type_ := addType, EmoteID := emoteID,
      ChangeType := emoteChangeType }
  { emoteAdds := db.emoteAdds ++ [add] }

/-- The clause `Order("updated_at desc")`: rows with equal times keep their table order. -/
def orderByUpdatedAtDesc (rows : List EmoteAdd) : List EmoteAdd :=
  rows.insertionSort (fun a b => b.UpdatedAt ≤ a.UpdatedAt)

/-- The clause `Offset(n)` of GORM: the first `n` rows are skipped; a value that is not
positive adds no `OFFSET` to the query. -/
def gormOffset (n : Int) (rows : List EmoteAdd) : List EmoteAdd :=
  if 0 < n then rows.drop n.toNat else rows

/-- The clause `Limit(n)` of GORM: at most `n` rows are returned; a value that is not
positive adds no `LIMIT` to the query (the theorems use positive values only). -/
def gormLimit (n : Int) (rows : List EmoteAdd) : List EmoteAdd :=
  if 0 < n then rows.take n.toNat else rows

/-- Arithmetic of the Go type `int` (64 bits, two's complement): the representative of `x`
in the range from `-2^63` to `2^63 - 1`. -/
def wrapInt (x : Int) : Int :=
  (x + 9223372036854775808) % 18446744073709551616 - 9223372036854775808

/-- The function `GetEmoteAdded`. -/
def GetEmoteAdded (db : Database) (channelTwitchID : String) (addType : RewardType)
    (limit : Int) : List EmoteAdd :=
  gormLimit limit
    (orderByUpdatedAtDesc
      (db.emoteAdds.filter (fun e =>
        decide (e.ChannelTwitchID = channelTwitchID) && decide (e.Type_ = addType) &&
          decide (e.ChangeType = EMOTE_ADD_ADD))))

/-- The function `GetEmoteHistory`. -/
def GetEmoteHistory (db : Database) (ownerTwitchID : String) (page : Int) (pageSize : Int)
    (added : Bool) : List EmoteAdd :=
  let query : List EmoteAdd :=
    if added then
      db.emoteAdds.filter (fun e =>
        decide (e.ChannelTwitchID = ownerTwitchID) && decide (e.ChangeType = EMOTE_ADD_ADD))
    else
      db.emoteAdds.filter (fun e =>
        decide (e.ChannelTwitchID = ownerTwitchID) && decide (e.ChangeType ≠ EMOTE_ADD_ADD))
  gormLimit pageSize
    (gormOffset (wrapInt (wrapInt (page * pageSize) - pageSize)) (orderByUpdatedAtDesc query))

/-- The calls `CreateEmoteAdd(channel, addType, emoteID, EMOTE_ADD_ADD)` for the listed
emotes, each at its instant, in order. -/
def createEmoteAdds (channelTwitchID : String) (addType : RewardType) :
    Database → List (String × Nat) → Database
  | db, [] => db
  | db, (emoteID, now) :: rest =>
    createEmoteAdds channelTwitchID addType
      (CreateEmoteAdd db now channelTwitchID addType emoteID EMOTE_ADD_ADD) rest

/-- The records of a channel that `GetEmoteHistory` is specified to page through: change
type `Add` when `added` is set and any other change type when it is not, by update time
descending. -/
def historyOf (db : Database) (channel : String) (added : Bool) : List EmoteAdd :=
  (db.emoteAdds.filter (fun e =>
    decide (e.ChannelTwitchID = channel) &&
      (if added then decide (e.ChangeType = EmoteChangeType.Add)
       else decide (e.ChangeType ≠ EmoteChangeType.Add)))).insertionSort
    (fun a b => b.UpdatedAt ≤ a.UpdatedAt)

/-- A small table: five additions to channel `c1`, then a removal, then an addition to
another channel. -/
def sampleDb : Database :=
  CreateEmoteAdd
    (CreateEmoteAdd
      (createEmoteAdds "c1" RewardType.Seventv { emoteAdds := [] }
        [("e1", 101), ("e2", 102), ("e3", 103), ("e4", 104), ("e5", 105)])
      106 "c1" RewardType.Seventv "e1" (EmoteChangeType.Other "remove"))
    107 "c2" RewardType.Bttv "b1" EMOTE_ADD_ADD

/-! ## Theorems about `config.go` -/

theorem sampleJson_lawful : sampleJson.Lawful := by
  have key : ∀ c ∈ sampleDocs, sampleRender c ≠ "" ∧
      sampleDocs.find? (fun d => decide (sampleRender d = sampleRender c)) = some c := by
    decide
  constructor
  · intro c js h
    simp only [sampleJson] at h ⊢
    split at h
    · rename_i hc
      cases h
      obtain ⟨h1, h2⟩ := key c hc
      simp [h1, h2]
    · cases h
  · intro c
    simp [sampleJson]

/-- The saved `EditorFor` is `nil` or empty, whatever the old document holds. -/
theorem protectedToSave_editorFor (oldConfig : UserConfig) :
    (protectedToSave oldConfig).EditorFor = Option.none ∨
      (protectedToSave oldConfig).EditorFor = some [] := by
  unfold protectedToSave
  by_cases h : oldConfig.Protected.EditorFor = Option.none
  · left; simp [h]
  · right; simp [h]

/-- A successful `processConfig`, read backwards: the read and the write succeeded, the body
decoded to `newConfig`, the old document (the zero value when the field was missing) is
`oldConfig`, the saved text `js` encodes the new `Redemptions` and `Editors` with the
re-derived `Protected`, and the subscription was made exactly when the field was missing. -/
theorem processConfig_ok_inv {J : Json} {f : Faults} {s s1 : Store} {userID body : String}
    (h : processConfig J f s userID body = (Option.none, s1)) :
    ∃ oldConfig newConfig js,
      f.hget = Option.none ∧ f.hset = Option.none ∧
      J.Unmarshal body = Except.ok newConfig ∧
      J.Marshal (Payload.config
        { Redemptions := newConfig.Redemptions, Editors := newConfig.Editors,
          Protected := protectedToSave oldConfig }) = Except.ok js ∧
      ((s.userConfig userID = Option.none ∧ oldConfig = UserConfig.zero ∧
          s1 = subscribeChannelPoints
            { s with userConfig := fun k => if k = userID then some js else s.userConfig k }
            userID) ∨
        (∃ val, s.userConfig userID = some val ∧ J.Unmarshal val = Except.ok oldConfig ∧
          s1 = { s with userConfig := fun k => if k = userID then some js else s.userConfig k })) := by
  unfold processConfig HGet at h
  cases hg : f.hget with
  | some msg => simp [hg] at h
  | none =>
    cases hu : s.userConfig userID with
    | none =>
      simp only [hg, hu] at h
      cases hb : J.Unmarshal body with
      | error e => simp [hb] at h
      | ok newConfig =>
        simp only [hb] at h
        cases hm : J.Marshal (Payload.config
            { Redemptions := newConfig.Redemptions, Editors := newConfig.Editors,
              Protected := protectedToSave UserConfig.zero }) with
        | error e => simp [hm] at h
        | ok js =>
          cases hs : f.hset with
          | some msg => simp [hm, HSet, hs] at h
          | none =>
            simp [hm, HSet, hs] at h
            exact ⟨UserConfig.zero, newConfig, js, rfl, rfl, rfl, hm, Or.inl ⟨rfl, rfl, h.symm⟩⟩
    | some val =>
      simp only [hg, hu] at h
      cases ho : J.Unmarshal val with
      | error e => simp [ho] at h
      | ok oldConfig =>
        cases hb : J.Unmarshal body with
        | error e => simp [ho, hb] at h
        | ok newConfig =>
          cases hm : J.Marshal (Payload.config
              { Redemptions := newConfig.Redemptions, Editors := newConfig.Editors,
                Protected := protectedToSave oldConfig }) with
          | error e => simp [ho, hb, hm] at h
          | ok js =>
            cases hs : f.hset with
            | some msg => simp [ho, hb, hm, HSet, hs] at h
            | none =>
              simp [ho, hb, hm, HSet, hs] at h
              exact ⟨oldConfig, newConfig, js, rfl, rfl, rfl, hm,
                Or.inr ⟨val, rfl, ho, h.symm⟩⟩

/-- A failing `processConfig` leaves the state as it was. -/
theorem processConfig_error_state (J : Json) (f : Faults) (s : Store) (userID body : String)
    (e : GoError) (h : (processConfig J f s userID body).1 = some e) :
    (processConfig J f s userID body).2 = s := by
  unfold processConfig HGet at h ⊢
  cases hg : f.hget with
  | some msg => simp [hg]
  | none =>
    cases hu : s.userConfig userID with
    | none =>
      simp only [hg, hu] at h ⊢
      cases hb : J.Unmarshal body with
      | error e => simp [hb]
      | ok newConfig =>
        simp only [hb] at h ⊢
        cases hm : J.Marshal (Payload.config
            { Redemptions := newConfig.Redemptions, Editors := newConfig.Editors,
              Protected := protectedToSave UserConfig.zero }) with
        | error e => simp [hm]
        | ok js =>
          cases hs : f.hset with
          | some msg => simp [hm, HSet, hs]
          | none => simp [hm, HSet, hs] at h
    | some val =>
      simp only [hg, hu] at h ⊢
      cases ho : J.Unmarshal val with
      | error e => simp [ho]
      | ok oldConfig =>
        cases hb : J.Unmarshal body with
        | error e => simp [ho, hb]
        | ok newConfig =>
          cases hm : J.Marshal (Payload.config
              { Redemptions := newConfig.Redemptions, Editors := newConfig.Editors,
                Protected := protectedToSave oldConfig }) with
          | error e => simp [ho, hb, hm]
          | ok js =>
            cases hs : f.hset with
            | some msg => simp [ho, hb, hm, HSet, hs]
            | none => simp [ho, hb, hm, HSet, hs] at h
/-- C1: two payloads that decode to documents with the same `Redemptions` and `Editors` make
`processConfig` return the same error and leave the same state, whatever `Protected` each of
them carries; and the document persisted by a successful call has the payload's `Redemptions`
and `Editors` and an `EditorFor` that is `nil` or empty, hence never a non-empty list chosen
by the client. -/
theorem processConfig_independent_of_submitted_protected (J : Json) (f : Faults) (s : Store)
    (userID body₁ body₂ : String) (c₁ c₂ : UserConfig)
    (h₁ : J.Unmarshal body₁ = Except.ok c₁) (h₂ : J.Unmarshal body₂ = Except.ok c₂)
    (hR : c₁.Redemptions = c₂.Redemptions) (hE : c₁.Editors = c₂.Editors) :
    processConfig J f s userID body₁ = processConfig J f s userID body₂ ∧
    ∀ s1, processConfig J f s userID body₁ = (Option.none, s1) →
      ∃ saved js, J.Marshal (Payload.config saved) = Except.ok js ∧
        s1.userConfig userID = some js ∧
        saved.Redemptions = c₁.Redemptions ∧ saved.Editors = c₁.Editors ∧
        (saved.Protected.EditorFor = Option.none ∨ saved.Protected.EditorFor = some []) ∧
        ∀ l : List String, l ≠ [] → saved.Protected.EditorFor ≠ some l := by
  refine ⟨?_, ?_⟩
  · unfold processConfig
    simp only [h₁, h₂, hR, hE]
  · intro s1 h
    obtain ⟨oldConfig, newConfig, js, -, -, hb, hm, hcase⟩ := processConfig_ok_inv h
    rw [h₁] at hb
    cases hb
    refine ⟨_, js, hm, ?_, rfl, rfl, protectedToSave_editorFor oldConfig, ?_⟩
    · rcases hcase with ⟨-, -, rfl⟩ | ⟨val, -, -, rfl⟩ <;> simp [subscribeChannelPoints]
    · intro l hl
      rcases protectedToSave_editorFor oldConfig with h0 | h0 <;> simp [h0]
      exact fun h => hl h

/-- C1 at a concrete input: the stored document of `u1` protects `streamer`; a payload that
claims `victim` and the same payload without a claim are processed alike, and the persisted
document has an empty `EditorFor`. -/
theorem processConfig_independent_of_submitted_protected_witness :
    (sampleJson.Unmarshal (sampleRender attackerDoc) = Except.ok attackerDoc ∧
      sampleJson.Unmarshal (sampleRender plainDoc) = Except.ok plainDoc ∧
      attackerDoc.Redemptions = plainDoc.Redemptions ∧
      attackerDoc.Editors = plainDoc.Editors ∧
      attackerDoc.Protected ≠ plainDoc.Protected) ∧
    processConfig sampleJson Faults.none (storeWith "u1" (sampleRender storedDoc)) "u1"
        (sampleRender attackerDoc) =
      processConfig sampleJson Faults.none (storeWith "u1" (sampleRender storedDoc)) "u1"
        (sampleRender plainDoc) ∧
    (processConfig sampleJson Faults.none (storeWith "u1" (sampleRender storedDoc)) "u1"
        (sampleRender attackerDoc)).1 = Option.none ∧
    (processConfig sampleJson Faults.none (storeWith "u1" (sampleRender storedDoc)) "u1"
        (sampleRender attackerDoc)).2.userConfig "u1" =
      some (sampleRender { attackerDoc with Protected := { EditorFor := some [] } }) :=
  ⟨⟨rfl, rfl, rfl, rfl, by decide⟩,
    (processConfig_independent_of_submitted_protected sampleJson Faults.none
      (storeWith "u1" (sampleRender storedDoc)) "u1" (sampleRender attackerDoc)
      (sampleRender plainDoc) attackerDoc plainDoc rfl rfl rfl rfl).1,
    rfl, rfl⟩

/-- C2: evaluation of `processConfig` on a stored document whose `EditorFor` is
`["streamer"]`: the call succeeds and the document it persists has the empty `EditorFor`,
so the stored protected value is lost; on a store without a document the persisted
`EditorFor` is the `nil` slice. -/
theorem processConfig_drops_stored_editorFor :
    sampleJson.Unmarshal (sampleRender storedDoc) = Except.ok storedDoc ∧
    storedDoc.Protected.EditorFor = some ["streamer"] ∧
    (processConfig sampleJson Faults.none (storeWith "u1" (sampleRender storedDoc)) "u1"
        (sampleRender plainDoc)).1 = Option.none ∧
    ((processConfig sampleJson Faults.none (storeWith "u1" (sampleRender storedDoc)) "u1"
        (sampleRender plainDoc)).2.userConfig "u1").map sampleJson.Unmarshal =
      some (Except.ok { plainDoc with Protected := { EditorFor := some [] } }) ∧
    ((processConfig sampleJson Faults.none emptyStore "u1"
        (sampleRender plainDoc)).2.userConfig "u1").map sampleJson.Unmarshal =
      some (Except.ok { plainDoc with Protected := { EditorFor := Option.none } }) :=
  ⟨rfl, rfl, rfl, rfl, rfl⟩

/-- C3 (as stated, refuted): `u1` replaces the document successfully with a payload that
decodes to `attackerDoc`; the following `GET` of `u1` meets a failing read and answers 200
with the default document, whose `Redemptions` and `Editors` are not those of the payload. -/
theorem get_after_processConfig_failed_read :
    sampleJson.Unmarshal (sampleRender attackerDoc) = Except.ok attackerDoc ∧
    (processConfig sampleJson Faults.none emptyStore "u1" (sampleRender attackerDoc)).1 =
      Option.none ∧
    (processConfig sampleJson Faults.none emptyStore "u1"
        (sampleRender attackerDoc)).2.userConfig "u1" =
      some (sampleRender { attackerDoc with Protected := { EditorFor := Option.none } }) ∧
    (handleUserConfig sampleJson readFails
        (processConfig sampleJson Faults.none emptyStore "u1" (sampleRender attackerDoc)).2
        (requestOf MethodGet "u1" "")).1 =
      { status := 200, body := sampleRender createDefaultUserConfig } ∧
    sampleJson.Unmarshal (sampleRender createDefaultUserConfig) =
      Except.ok createDefaultUserConfig ∧
    createDefaultUserConfig.Redemptions ≠ attackerDoc.Redemptions ∧
    createDefaultUserConfig.Editors ≠ attackerDoc.Editors :=
  ⟨rfl, rfl, rfl, rfl, rfl, by decide, by decide⟩

/-- C3 (amended): after a successful `processConfig` with a payload that decodes to `cfg`, a
`GET` of the same user whose read of the stored value succeeds answers 200 with the encoding of a document whose
`Redemptions` and `Editors` are those of `cfg`, and leaves the state as it is. -/
theorem get_after_processConfig (J : Json) (hJ : J.Lawful) (f f1 : Faults) (s s1 : Store)
    (userID body : String) (cfg : UserConfig) (r : Request)
    (hcfg : J.Unmarshal body = Except.ok cfg)
    (hok : processConfig J f s userID body = (Option.none, s1))
    (hread : f1.hget = Option.none)
    (hm : r.Method = MethodGet) (hu : r.authUserID = some userID) :
    ∃ doc js, handleUserConfig J f1 s1 r = ({ status := 200, body := js }, s1) ∧
      J.Marshal (Payload.config doc) = Except.ok js ∧
      J.Unmarshal js = Except.ok doc ∧
      doc.Redemptions = cfg.Redemptions ∧ doc.Editors = cfg.Editors := by
  obtain ⟨oldConfig, newConfig, js, -, -, hb, hmar, hcase⟩ := processConfig_ok_inv hok
  rw [hcfg] at hb
  cases hb
  have hrt := hJ.unmarshal_marshal _ _ hmar
  have hne : js ≠ "" := by
    intro h0
    rw [h0] at hrt
    exact hJ.unmarshal_empty _ hrt
  have hstored : s1.userConfig userID = some js := by
    rcases hcase with ⟨-, -, rfl⟩ | ⟨val, -, -, rfl⟩ <;> simp [subscribeChannelPoints]
  refine ⟨_, js, ?_, hmar, hrt, rfl, rfl⟩
  simp [handleUserConfig, hu, hm, HGet, hread, hstored, hne, hrt, writeJSON, hmar, StatusOK]

/-- C3 (amended) at a concrete input: `u1` replaces the stored document and reads it back. -/
theorem get_after_processConfig_witness :
    ∃ doc js, handleUserConfig sampleJson Faults.none
        (processConfig sampleJson Faults.none (storeWith "u1" (sampleRender storedDoc)) "u1"
          (sampleRender attackerDoc)).2 (requestOf MethodGet "u1" "") =
        ({ status := 200, body := js },
          (processConfig sampleJson Faults.none (storeWith "u1" (sampleRender storedDoc)) "u1"
            (sampleRender attackerDoc)).2) ∧
      sampleJson.Marshal (Payload.config doc) = Except.ok js ∧
      sampleJson.Unmarshal js = Except.ok doc ∧
      doc.Redemptions = attackerDoc.Redemptions ∧ doc.Editors = attackerDoc.Editors :=
  get_after_processConfig sampleJson sampleJson_lawful Faults.none Faults.none
    (storeWith "u1" (sampleRender storedDoc)) _ "u1" (sampleRender attackerDoc) attackerDoc
    (requestOf MethodGet "u1" "") rfl (by
      have h : (processConfig sampleJson Faults.none (storeWith "u1" (sampleRender storedDoc))
          "u1" (sampleRender attackerDoc)).1 = Option.none := by decide
      exact Prod.ext h rfl) rfl rfl rfl
/-- C5 (as stated, refuted): the user `u1` has a stored value, the empty string, that
`json.Unmarshal` rejects; `processConfig` treats it as a present document that cannot be
decoded and fails, but `GET` answers 200 with the default document instead of 400.  The same
answer is given for the stored value `not json` when the read of it fails. -/
theorem get_empty_stored_value_returns_default :
    (storeWith "u1" "").userConfig "u1" = some "" ∧
    sampleJson.Unmarshal "" =
      Except.error (GoError.other "unexpected end of JSON input") ∧
    (processConfig sampleJson Faults.none (storeWith "u1" "") "u1"
        (sampleRender plainDoc)).1 =
      some (GoError.other "unexpected end of JSON input") ∧
    (handleUserConfig sampleJson Faults.none (storeWith "u1" "")
        (requestOf MethodGet "u1" "")).1 =
      { status := 200, body := sampleRender createDefaultUserConfig } ∧
    (handleUserConfig sampleJson Faults.none (storeWith "u1" "")
        (requestOf MethodGet "u1" "")).1.status ≠ 400 ∧
    (storeWith "u1" "not json").userConfig "u1" = some "not json" ∧
    sampleJson.Unmarshal "not json" = Except.error (GoError.other "invalid character") ∧
    (handleUserConfig sampleJson readFails (storeWith "u1" "not json")
        (requestOf MethodGet "u1" "")).1 =
      { status := 200, body := sampleRender createDefaultUserConfig } :=
  ⟨rfl, rfl, rfl, rfl, by decide, rfl, rfl, rfl⟩

/-- C5 (amended): when the stored value of a user is present and cannot be decoded,
`processConfig` returns the decoding error for every payload and every behaviour of the
write, and the state afterwards is the state before (nothing persisted, no subscription);
a `GET` whose read succeeds answers 400, not the default document, when the stored value is
not the empty string, and leaves the state as it is. -/
theorem corrupted_document_is_surfaced (J : Json) (f : Faults) (s : Store)
    (userID val body : String) (e : GoError) (r : Request)
    (hval : s.userConfig userID = some val) (hbad : J.Unmarshal val = Except.error e)
    (hm : r.Method = MethodGet) (hu : r.authUserID = some userID) :
    (f.hget = Option.none → processConfig J f s userID body = (some e, s)) ∧
    (∃ e1, processConfig J f s userID body = (some e1, s)) ∧
    (f.hget = Option.none → val ≠ "" →
      handleUserConfig J f s r =
        (httpError ("can't recover config" ++ e.Error) StatusBadRequest, s) ∧
      (handleUserConfig J f s r).1.status = 400) := by
  refine ⟨?_, ?_, ?_⟩
  · intro hg
    simp [processConfig, HGet, hg, hval, hbad]
  · cases hg : f.hget with
    | none => exact ⟨e, by simp [processConfig, HGet, hg, hval, hbad]⟩
    | some msg => exact ⟨GoError.other msg, by simp [processConfig, HGet, hg]⟩
  · intro hg hne
    simp [handleUserConfig, hu, hm, HGet, hg, hval, hne, hbad, httpError, StatusBadRequest]

/-- C5 (amended) at a concrete input: the stored value of `u1` is not JSON. -/
theorem corrupted_document_is_surfaced_witness :
    ((storeWith "u1" "not json").userConfig "u1" = some "not json" ∧
      sampleJson.Unmarshal "not json" = Except.error (GoError.other "invalid character") ∧
      Faults.none.hget = Option.none ∧ "not json" ≠ "") ∧
    processConfig sampleJson Faults.none (storeWith "u1" "not json") "u1"
        (sampleRender plainDoc) =
      (some (GoError.other "invalid character"), storeWith "u1" "not json") ∧
    (handleUserConfig sampleJson Faults.none (storeWith "u1" "not json")
        (requestOf MethodGet "u1" "")).1.status = 400 :=
  ⟨⟨rfl, rfl, rfl, by decide⟩,
    (corrupted_document_is_surfaced sampleJson Faults.none (storeWith "u1" "not json") "u1"
      "not json" (sampleRender plainDoc) (GoError.other "invalid character")
      (requestOf MethodGet "u1" "") rfl rfl rfl rfl).1 rfl,
    ((corrupted_document_is_surfaced sampleJson Faults.none (storeWith "u1" "not json") "u1"
      "not json" (sampleRender plainDoc) (GoError.other "invalid character")
      (requestOf MethodGet "u1" "") rfl rfl rfl rfl).2.2 rfl (by decide)).2⟩

/-- The subscription log after `processConfig`: one more entry after a success on a missing
field, unchanged otherwise. -/
theorem processConfig_subscribed (J : Json) (f : Faults) (s : Store) (userID body : String) :
    (processConfig J f s userID body).2.subscribed =
      if s.userConfig userID = Option.none ∧ (processConfig J f s userID body).1 = Option.none
      then s.subscribed ++ [userID] else s.subscribed := by
  cases hres : (processConfig J f s userID body).1 with
  | some e =>
    rw [processConfig_error_state J f s userID body e hres]
    simp
  | none =>
    have hpair : processConfig J f s userID body =
        (Option.none, (processConfig J f s userID body).2) := Prod.ext hres rfl
    obtain ⟨oldConfig, newConfig, js, -, -, -, -, hcase⟩ := processConfig_ok_inv hpair
    rcases hcase with ⟨h0, -, h1⟩ | ⟨val, h0, -, h1⟩
    · rw [h1]; simp [h0, subscribeChannelPoints]
    · rw [h1]; simp [h0]

/-- After a successful `processConfig` the field of the user holds a value. -/
theorem processConfig_ok_stored (J : Json) (f : Faults) (s : Store) (userID body : String)
    (h : (processConfig J f s userID body).1 = Option.none) :
    ∃ js, (processConfig J f s userID body).2.userConfig userID = some js := by
  have hpair : processConfig J f s userID body =
      (Option.none, (processConfig J f s userID body).2) := Prod.ext h rfl
  obtain ⟨oldConfig, newConfig, js, -, -, -, -, hcase⟩ := processConfig_ok_inv hpair
  rcases hcase with ⟨-, -, h1⟩ | ⟨val, -, -, h1⟩ <;>
    exact ⟨js, by rw [h1]; simp [subscribeChannelPoints]⟩

/-- Successful calls on a store that already holds a value for the user do not subscribe. -/
theorem processConfigs_subscribed_of_stored (J : Json) (userID : String) :
    ∀ (calls : List (Faults × String)) (s : Store) (val : String),
      s.userConfig userID = some val →
      (∀ e ∈ (processConfigs J userID s calls).1, e = Option.none) →
      (processConfigs J userID s calls).2.subscribed = s.subscribed := by
  intro calls
  induction calls with
  | nil => intro s val _ _; rfl
  | cons c rest ih =>
    intro s val hval hall
    obtain ⟨f, body⟩ := c
    simp only [processConfigs, List.mem_cons, forall_eq_or_imp] at hall ⊢
    obtain ⟨js, hjs⟩ := processConfig_ok_stored J f s userID body hall.1
    rw [ih _ js hjs hall.2, processConfig_subscribed]
    simp [hval]

/-- C6: `processConfig` appends the user to the subscription log exactly when no value was
stored for the user and the call succeeded (which persists the new document), and leaves the
log unchanged otherwise; so in a sequence of successful calls for one user that starts
without a stored value, the first call subscribes and the log at the end holds exactly that
one new entry. -/
theorem subscribe_exactly_on_creation (J : Json) (f : Faults) (s : Store)
    (userID body : String) :
    ((processConfig J f s userID body).2.subscribed = s.subscribed ++ [userID] ↔
      s.userConfig userID = Option.none ∧
        (processConfig J f s userID body).1 = Option.none) ∧
    ((processConfig J f s userID body).2.subscribed = s.subscribed ∨
      (processConfig J f s userID body).2.subscribed = s.subscribed ++ [userID]) ∧
    ((processConfig J f s userID body).1 = Option.none →
      ∃ js, (processConfig J f s userID body).2.userConfig userID = some js) ∧
    (∀ rest : List (Faults × String), s.userConfig userID = Option.none →
      (∀ e ∈ (processConfigs J userID s ((f, body) :: rest)).1, e = Option.none) →
      (processConfig J f s userID body).2.subscribed = s.subscribed ++ [userID] ∧
      (processConfigs J userID s ((f, body) :: rest)).2.subscribed =
        s.subscribed ++ [userID] ∧
      ((processConfigs J userID s ((f, body) :: rest)).2.subscribed.count userID =
        s.subscribed.count userID + 1)) := by
  have hsub := processConfig_subscribed J f s userID body
  refine ⟨?_, ?_, processConfig_ok_stored J f s userID body, ?_⟩
  · rw [hsub]
    constructor
    · intro h
      by_contra hc
      rw [if_neg hc] at h
      have := congrArg List.length h
      simp at this
    · intro h
      rw [if_pos h]
  · rw [hsub]
    split
    · right; rfl
    · left; rfl
  · intro rest hnone hall
    simp only [processConfigs, List.mem_cons, forall_eq_or_imp] at hall ⊢
    obtain ⟨js, hjs⟩ := processConfig_ok_stored J f s userID body hall.1
    have h1 : (processConfig J f s userID body).2.subscribed = s.subscribed ++ [userID] := by
      rw [hsub, if_pos ⟨hnone, hall.1⟩]
    have h2 := processConfigs_subscribed_of_stored J userID rest _ js hjs hall.2
    refine ⟨h1, by rw [h2, h1], ?_⟩
    rw [h2, h1]
    simp

/-- C6 at a concrete input: three successful calls for `u1` on the empty store. -/
theorem subscribe_exactly_on_creation_witness :
    emptyStore.userConfig "u1" = Option.none ∧
    (∀ e ∈ (processConfigs sampleJson "u1" emptyStore
        [(Faults.none, sampleRender attackerDoc), (Faults.none, sampleRender plainDoc),
          (Faults.none, sampleRender attackerDoc)]).1, e = Option.none) ∧
    (processConfigs sampleJson "u1" emptyStore
        [(Faults.none, sampleRender attackerDoc), (Faults.none, sampleRender plainDoc),
          (Faults.none, sampleRender attackerDoc)]).2.subscribed = ["u1"] :=
  ⟨rfl, by decide,
    ((subscribe_exactly_on_creation sampleJson Faults.none emptyStore "u1"
      (sampleRender attackerDoc)).2.2.2
      [(Faults.none, sampleRender plainDoc), (Faults.none, sampleRender attackerDoc)]
      rfl (by decide)).2.1⟩
/-- C7: for a user without a stored value, or with the empty string as stored value, `GET`
answers 200 with the encoding of the default document and leaves the state as it is; the
default document has exactly one configured reward, the Bttv reward with title "Bttv emote"
and `Active = false`, an empty `Editors` list and an empty `Protected.EditorFor` list. -/
theorem get_unknown_user_returns_default (J : Json) (f : Faults) (s : Store) (r : Request)
    (userID js : String)
    (hm : r.Method = MethodGet) (hu : r.authUserID = some userID)
    (habsent : s.userConfig userID = Option.none ∨ s.userConfig userID = some "")
    (hjs : J.Marshal (Payload.config createDefaultUserConfig) = Except.ok js) :
    handleUserConfig J f s r = ({ status := 200, body := js }, s) ∧
    createDefaultUserConfig.Redemptions =
      [(RewardType.Bttv, { Title := "Bttv emote", Active := false })] ∧
    createDefaultUserConfig.Redemptions.length = 1 ∧
    createDefaultUserConfig.Editors = some [] ∧
    createDefaultUserConfig.Protected.EditorFor = some [] := by
  refine ⟨?_, rfl, rfl, rfl, rfl⟩
  cases hg : f.hget with
  | some msg => simp [handleUserConfig, hu, hm, HGet, hg, writeJSON, hjs, StatusOK]
  | none =>
    rcases habsent with h | h <;>
      simp [handleUserConfig, hu, hm, HGet, hg, h, writeJSON, hjs, StatusOK]

/-- C7 at a concrete input: a `GET` of `u1` on the empty store. -/
theorem get_unknown_user_returns_default_witness :
    (emptyStore.userConfig "u1" = Option.none ∨ emptyStore.userConfig "u1" = some "") ∧
    sampleJson.Marshal (Payload.config createDefaultUserConfig) =
      Except.ok (sampleRender createDefaultUserConfig) ∧
    handleUserConfig sampleJson Faults.none emptyStore (requestOf MethodGet "u1" "") =
      ({ status := 200, body := sampleRender createDefaultUserConfig }, emptyStore) :=
  ⟨Or.inl rfl, rfl,
    (get_unknown_user_returns_default sampleJson Faults.none emptyStore
      (requestOf MethodGet "u1" "") "u1" (sampleRender createDefaultUserConfig) rfl rfl
      (Or.inl rfl) rfl).1⟩

/-- C8: a `DELETE` answers 200 exactly when both the removal and the unsubscription succeed.
When the removal fails the answer is 500, the state is unchanged and the unsubscription is
not attempted; when the removal succeeds the value of the user is gone and the
unsubscription is attempted, and if that fails the answer is 500 although the value has
been removed. -/
theorem delete_needs_both_steps (J : Json) (f : Faults) (s : Store) (r : Request)
    (userID js : String)
    (hm : r.Method = MethodDelete) (hu : r.authUserID = some userID)
    (hjs : J.Marshal (Payload.text "") = Except.ok js) :
    ((handleUserConfig J f s r).1.status = 200 ↔
      f.hdel = Option.none ∧ f.unsubscribe = Option.none) ∧
    (f.hdel = Option.none → f.unsubscribe = Option.none →
      (handleUserConfig J f s r).1 = { status := 200, body := js }) ∧
    (∀ msg, f.hdel = some msg →
      handleUserConfig J f s r =
        (httpError ("Failed deleting: " ++ msg) StatusInternalServerError, s) ∧
      (handleUserConfig J f s r).1.status = 500) ∧
    (f.hdel = Option.none →
      (handleUserConfig J f s r).2.userConfig userID = Option.none ∧
      (∀ k, k ≠ userID → (handleUserConfig J f s r).2.userConfig k = s.userConfig k) ∧
      (handleUserConfig J f s r).2.unsubscribed = s.unsubscribed ++ [userID]) ∧
    (∀ msg, f.hdel = Option.none → f.unsubscribe = some msg →
      (handleUserConfig J f s r).1 =
        httpError ("Failed to unsubscribe" ++ msg) StatusInternalServerError ∧
      (handleUserConfig J f s r).1.status = 500 ∧
      (handleUserConfig J f s r).2.userConfig userID = Option.none) := by
  have hne1 : MethodDelete ≠ MethodGet := by decide
  have hne2 : MethodDelete ≠ MethodPost := by decide
  cases hd : f.hdel with
  | some msg =>
    simp [handleUserConfig, hu, hm, hne1, hne2, HDel, hd, httpError, GoError.Error,
      StatusInternalServerError]
  | none =>
    cases hun : f.unsubscribe with
    | some msg =>
      simp [handleUserConfig, hu, hm, hne1, hne2, HDel, hd, unsubscribeChannelPoints, hun,
        httpError, GoError.Error, StatusInternalServerError]
      intro k hk
      simp [hk]
    | none =>
      simp [handleUserConfig, hu, hm, hne1, hne2, HDel, hd, unsubscribeChannelPoints, hun,
        writeJSON, hjs, StatusOK]
      intro k hk
      simp [hk]

/-- C8 at a concrete input: the removal succeeds and the unsubscription fails. -/
theorem delete_needs_both_steps_witness :
    sampleJson.Marshal (Payload.text "") = Except.ok "\"\"" ∧
    (handleUserConfig sampleJson
        { hget := Option.none, hset := Option.none, hdel := Option.none,
          unsubscribe := some "helix: request failed" }
        (storeWith "u1" (sampleRender storedDoc)) (requestOf MethodDelete "u1" "")).1.status =
      500 ∧
    (handleUserConfig sampleJson
        { hget := Option.none, hset := Option.none, hdel := Option.none,
          unsubscribe := some "helix: request failed" }
        (storeWith "u1" (sampleRender storedDoc))
        (requestOf MethodDelete "u1" "")).2.userConfig "u1" = Option.none :=
  ⟨rfl,
    ((delete_needs_both_steps sampleJson
      { hget := Option.none, hset := Option.none, hdel := Option.none,
        unsubscribe := some "helix: request failed" }
      (storeWith "u1" (sampleRender storedDoc)) (requestOf MethodDelete "u1" "") "u1" "\"\""
      rfl rfl rfl).2.2.2.2 "helix: request failed" rfl rfl).2⟩
/-! ## Theorems about `emote_history.go` -/

/-- The offset computed by `GetEmoteHistory` in 64-bit arithmetic is `(page - 1) * pageSize`
as long as `page * pageSize` does not overflow. -/
theorem wrapInt_offset (p s : Nat) (hp : 1 ≤ p) (hb : p * s < 9223372036854775808) :
    wrapInt (wrapInt ((p : Int) * (s : Int)) - (s : Int)) = (((p - 1) * s : Nat) : Int) := by
  obtain ⟨q, rfl⟩ : ∃ q, p = q + 1 := ⟨p - 1, by omega⟩
  have h1 : ((q + 1 : Nat) : Int) * (s : Int) = ((q * s : Nat) : Int) + (s : Int) := by
    push_cast; ring
  have h2 : (q + 1) * s = q * s + s := by ring
  rw [h2] at hb
  rw [h1]
  simp only [Nat.add_sub_cancel]
  generalize q * s = a at hb ⊢
  unfold wrapInt
  omega

/-- The query of `GetEmoteHistory` selects the rows of `historyOf`. -/
theorem getEmoteHistory_eq (db : Database) (channel : String) (page pageSize : Int)
    (added : Bool) :
    GetEmoteHistory db channel page pageSize added =
      gormLimit pageSize
        (gormOffset (wrapInt (wrapInt (page * pageSize) - pageSize))
          (historyOf db channel added)) := by
  cases added <;> simp [GetEmoteHistory, historyOf, orderByUpdatedAtDesc, EMOTE_ADD_ADD]

/-- Page `p` of size `s` is the slice of `historyOf` that starts at `(p - 1) * s`. -/
theorem getEmoteHistory_slice (db : Database) (channel : String) (added : Bool) (p s : Nat)
    (hp : 1 ≤ p) (hs : 1 ≤ s) (hb : p * s < 9223372036854775808) :
    GetEmoteHistory db channel (p : Int) (s : Int) added =
      ((historyOf db channel added).drop ((p - 1) * s)).take s := by
  rw [getEmoteHistory_eq, wrapInt_offset p s hp hb]
  have hs0 : (0 : Int) < (s : Int) := by omega
  simp only [gormLimit, gormOffset, hs0, if_true, Int.toNat_ofNat]
  split
  · rfl
  · rename_i h
    have h0 : (p - 1) * s = 0 := by
      have : ¬ (0 < (p - 1) * s) := fun hc => h (by exact_mod_cast hc)
      omega
    rw [h0]
    rfl

/-- Ordering by update time descending yields a list sorted by update time descending. -/
theorem sorted_byUpdatedAtDesc (rows : List EmoteAdd) :
    (rows.insertionSort (fun a b => b.UpdatedAt ≤ a.UpdatedAt)).Sorted
      (fun a b => b.UpdatedAt ≤ a.UpdatedAt) := by
  haveI : IsTotal EmoteAdd (fun a b => b.UpdatedAt ≤ a.UpdatedAt) :=
    ⟨fun a b => Nat.le_total b.UpdatedAt a.UpdatedAt⟩
  haveI : IsTrans EmoteAdd (fun a b => b.UpdatedAt ≤ a.UpdatedAt) :=
    ⟨fun _ _ _ h1 h2 => Nat.le_trans h2 h1⟩
  exact List.sorted_insertionSort _ _

/-- Rows with pairwise distinct primary keys are pairwise distinct, and so are the rows of
`historyOf`. -/
theorem historyOf_nodup (db : Database) (channel : String) (added : Bool)
    (hid : (db.emoteAdds.map EmoteAdd.ID).Nodup) : (historyOf db channel added).Nodup := by
  unfold historyOf
  exact ((List.perm_insertionSort _ _).nodup_iff).2 ((List.Nodup.of_map _ hid).filter _)

/-- Two consecutive slices of a list without repetition are disjoint. -/
theorem slices_disjoint (l : List EmoteAdd) (hl : l.Nodup) (a s : Nat) :
    List.Disjoint ((l.drop a).take s) ((l.drop (a + s)).take s) := by
  have h1 : (l.drop a).Nodup := hl.sublist (List.drop_sublist _ _)
  have h2 := List.disjoint_take_drop h1 (le_refl s)
  rw [List.drop_drop] at h2
  intro x hx hy
  exact h2 hx (List.mem_of_mem_take hy)

/-- C4 (as stated, refuted): on the sample table, page 6148914691236517207 of size 3 of the
additions to channel `c1` is not the slice at offset `(p - 1) * s`, which is empty: the
product `p * s` is `2^64 + 5` and wraps to 5, the offset is 2 and the page holds `e3`, `e2`,
`e1`, sharing `e3` with page 1.  With page size 0 page 1 holds all five additions. -/
theorem getEmoteHistory_offset_overflow :
    (historyOf sampleDb "c1" true).map EmoteAdd.EmoteID = ["e5", "e4", "e3", "e2", "e1"] ∧
    (6148914691236517207 : Int) < 9223372036854775808 ∧
    wrapInt (wrapInt (6148914691236517207 * 3) - 3) = 2 ∧
    (GetEmoteHistory sampleDb "c1" 6148914691236517207 3 true).map EmoteAdd.EmoteID =
      ["e3", "e2", "e1"] ∧
    ((historyOf sampleDb "c1" true).drop ((6148914691236517207 - 1) * 3)).take 3 = [] ∧
    (GetEmoteHistory sampleDb "c1" 1 3 true).map EmoteAdd.EmoteID = ["e5", "e4", "e3"] ∧
    ¬ List.Disjoint (GetEmoteHistory sampleDb "c1" 1 3 true)
      (GetEmoteHistory sampleDb "c1" 6148914691236517207 3 true) ∧
    (GetEmoteHistory sampleDb "c1" 1 0 true).map EmoteAdd.EmoteID =
      ["e5", "e4", "e3", "e2", "e1"] ∧
    ((historyOf sampleDb "c1" true).drop ((1 - 1) * 0)).take 0 = [] :=
  ⟨by decide, by decide, by decide, by decide, by decide, by decide,
    fun h => h
      (a := { ID := 3, CreatedAt := 103, UpdatedAt := 103, ChannelTwitchID := "c1",
              Type_ := RewardType.Seventv, ChangeType := EmoteChangeType.Add,
              EmoteID := "e3" })
      (by decide) (by decide),
    by decide, by decide⟩

/-- C4 (amended): the records that `GetEmoteHistory` pages through, `historyOf`, are the matching
records of the channel (change type `Add` when `added` is set, any other change type when it
is not) ordered by update time descending.  Pages 1 and 2 of size 10 concatenate to the
first 20 of them and, the primary keys being distinct, are disjoint.  In general, for `p ≥ 1`
and `s ≥ 1` within the range of `int`, page `p` of size `s` is the slice of length `s` at
offset `(p - 1) * s`; pages `p` and `p + 1` concatenate to the slice of length `2 * s` at
that offset and are disjoint. -/
theorem getEmoteHistory_pagination (db : Database) (channel : String) (added : Bool) :
    (historyOf db channel added).Sorted (fun a b => b.UpdatedAt ≤ a.UpdatedAt) ∧
    (∀ e, e ∈ historyOf db channel added ↔
      e ∈ db.emoteAdds ∧ e.ChannelTwitchID = channel ∧
        (if added then e.ChangeType = EmoteChangeType.Add
         else e.ChangeType ≠ EmoteChangeType.Add)) ∧
    (historyOf db channel added).Perm
      (db.emoteAdds.filter (fun e =>
        decide (e.ChannelTwitchID = channel) &&
          (if added then decide (e.ChangeType = EmoteChangeType.Add)
           else decide (e.ChangeType ≠ EmoteChangeType.Add)))) ∧
    GetEmoteHistory db channel 1 10 added ++ GetEmoteHistory db channel 2 10 added =
      (historyOf db channel added).take 20 ∧
    ((db.emoteAdds.map EmoteAdd.ID).Nodup →
      List.Disjoint (GetEmoteHistory db channel 1 10 added)
        (GetEmoteHistory db channel 2 10 added)) ∧
    (∀ p s : Nat, 1 ≤ p → 1 ≤ s → p * s < 9223372036854775808 →
      GetEmoteHistory db channel (p : Int) (s : Int) added =
        ((historyOf db channel added).drop ((p - 1) * s)).take s) ∧
    (∀ p s : Nat, 1 ≤ p → 1 ≤ s → (p + 1) * s < 9223372036854775808 →
      GetEmoteHistory db channel (p : Int) (s : Int) added ++
          GetEmoteHistory db channel ((p + 1 : Nat) : Int) (s : Int) added =
        ((historyOf db channel added).drop ((p - 1) * s)).take (2 * s) ∧
      ((db.emoteAdds.map EmoteAdd.ID).Nodup →
        List.Disjoint (GetEmoteHistory db channel (p : Int) (s : Int) added)
          (GetEmoteHistory db channel ((p + 1 : Nat) : Int) (s : Int) added))) := by
  have hgen : ∀ p s : Nat, 1 ≤ p → 1 ≤ s → (p + 1) * s < 9223372036854775808 →
      GetEmoteHistory db channel (p : Int) (s : Int) added =
        ((historyOf db channel added).drop ((p - 1) * s)).take s ∧
      GetEmoteHistory db channel ((p + 1 : Nat) : Int) (s : Int) added =
        ((historyOf db channel added).drop ((p - 1) * s + s)).take s := by
    intro p s hp hs hb
    have hb1 : p * s < 9223372036854775808 := by
      have : p * s ≤ (p + 1) * s := Nat.mul_le_mul_right s (Nat.le_succ p)
      omega
    refine ⟨getEmoteHistory_slice db channel added p s hp hs hb1, ?_⟩
    rw [getEmoteHistory_slice db channel added (p + 1) s (by omega) hs hb]
    have : (p + 1 - 1) * s = (p - 1) * s + s := by
      obtain ⟨q, rfl⟩ : ∃ q, p = q + 1 := ⟨p - 1, by omega⟩
      simp only [Nat.add_sub_cancel]
      ring
    rw [this]
  have h12 := hgen 1 10 (by decide) (by decide) (by decide)
  simp only [Nat.cast_one, Nat.cast_ofNat, Nat.reduceAdd, Nat.sub_self, Nat.zero_mul,
    Nat.zero_add, List.drop_zero] at h12
  refine ⟨sorted_byUpdatedAtDesc _, ?_, List.perm_insertionSort _ _, ?_, ?_,
    fun p s hp hs hb => getEmoteHistory_slice db channel added p s hp hs hb, ?_⟩
  · intro e
    unfold historyOf
    rw [List.mem_insertionSort, List.mem_filter]
    cases added <;> simp
  · rw [h12.1, h12.2, show (20 : Nat) = 10 + 10 from rfl, List.take_add]
  · intro hid
    rw [h12.1, h12.2]
    have := slices_disjoint _ (historyOf_nodup db channel added hid) 0 10
    simpa using this
  · intro p s hp hs hb
    obtain ⟨h1, h2⟩ := hgen p s hp hs hb
    refine ⟨?_, ?_⟩
    · rw [h1, h2, two_mul, List.take_add, List.drop_drop]
    · intro hid
      rw [h1, h2]
      exact slices_disjoint _ (historyOf_nodup db channel added hid) _ _
/-- C4 (amended) at a concrete input: pages 2 and 3 of size 2 of the additions to channel `c1`. -/
theorem getEmoteHistory_pagination_witness :
    ((sampleDb.emoteAdds.map EmoteAdd.ID).Nodup ∧
      1 ≤ 2 ∧ 1 ≤ 2 ∧ (2 + 1) * 2 < 9223372036854775808) ∧
    GetEmoteHistory sampleDb "c1" ((2 : Nat) : Int) ((2 : Nat) : Int) true =
      ((historyOf sampleDb "c1" true).drop ((2 - 1) * 2)).take 2 ∧
    List.Disjoint (GetEmoteHistory sampleDb "c1" ((2 : Nat) : Int) ((2 : Nat) : Int) true)
      (GetEmoteHistory sampleDb "c1" ((2 + 1 : Nat) : Int) ((2 : Nat) : Int) true) ∧
    (GetEmoteHistory sampleDb "c1" ((2 : Nat) : Int) ((2 : Nat) : Int) true).map
      EmoteAdd.EmoteID = ["e3", "e2"] :=
  ⟨⟨by decide, by decide, by decide, by decide⟩,
    (getEmoteHistory_pagination sampleDb "c1" true).2.2.2.2.2.1 2 2 (by decide) (by decide)
      (by decide),
    ((getEmoteHistory_pagination sampleDb "c1" true).2.2.2.2.2.2 2 2 (by decide) (by decide)
      (by decide)).2 (by decide),
    by decide⟩

/-- A row that is strictly newer than all rows before it comes first in the ordering. -/
theorem insertionSort_append_newest (l : List EmoteAdd) (x : EmoteAdd)
    (h : ∀ y ∈ l, y.UpdatedAt < x.UpdatedAt) :
    (l ++ [x]).insertionSort (fun a b => b.UpdatedAt ≤ a.UpdatedAt) =
      x :: l.insertionSort (fun a b => b.UpdatedAt ≤ a.UpdatedAt) := by
  induction l with
  | nil => rfl
  | cons a l ih =>
    have ha : ¬ x.UpdatedAt ≤ a.UpdatedAt := by
      have := h a (List.mem_cons_self _ _)
      omega
    rw [List.cons_append, List.insertionSort, ih (fun y hy => h y (List.mem_cons_of_mem _ hy)),
      List.orderedInsert, if_neg ha, List.insertionSort]

/-- Appending one more call to `createEmoteAdds` is one more `CreateEmoteAdd`. -/
theorem createEmoteAdds_append (channel : String) (addType : RewardType) :
    ∀ (calls : List (String × Nat)) (db : Database) (last : String × Nat),
      createEmoteAdds channel addType db (calls ++ [last]) =
        CreateEmoteAdd (createEmoteAdds channel addType db calls) last.2 channel addType last.1
          EMOTE_ADD_ADD := by
  intro calls
  induction calls with
  | nil => intro db last; rfl
  | cons c rest ih =>
    intro db last
    obtain ⟨emoteID, now⟩ := c
    simp only [List.cons_append, createEmoteAdds]
    exact ih _ last

/-- Every row after `createEmoteAdds` was there before or carries the instant of one of the
calls. -/
theorem mem_createEmoteAdds (channel : String) (addType : RewardType) :
    ∀ (calls : List (String × Nat)) (db : Database) (e : EmoteAdd),
      e ∈ (createEmoteAdds channel addType db calls).emoteAdds →
      e ∈ db.emoteAdds ∨ e.UpdatedAt ∈ calls.map Prod.snd := by
  intro calls
  induction calls with
  | nil => intro db e h; exact Or.inl h
  | cons c rest ih =>
    intro db e h
    obtain ⟨emoteID, now⟩ := c
    simp only [createEmoteAdds] at h
    rcases ih _ e h with h1 | h1
    · simp only [CreateEmoteAdd, List.mem_append, List.mem_singleton] at h1
      rcases h1 with h1 | h1
      · exact Or.inl h1
      · right; simp [h1]
    · right; simp only [List.map_cons, List.mem_cons]; exact Or.inr h1

/-- C10 (as stated, refuted): on the sample table `GetEmoteAdded` with limit -1, and with
limit 0, returns all five additions of type Seventv to channel `c1`, more than the limit. -/
theorem getEmoteAdded_nonpositive_limit :
    (GetEmoteAdded sampleDb "c1" RewardType.Seventv (-1)).map EmoteAdd.EmoteID =
      ["e5", "e4", "e3", "e2", "e1"] ∧
    ¬ (((GetEmoteAdded sampleDb "c1" RewardType.Seventv (-1)).length : Int) ≤ -1) ∧
    (GetEmoteAdded sampleDb "c1" RewardType.Seventv 0).map EmoteAdd.EmoteID =
      ["e5", "e4", "e3", "e2", "e1"] ∧
    ¬ (((GetEmoteAdded sampleDb "c1" RewardType.Seventv 0).length : Int) ≤ 0) := by
  decide

/-- C10 (amended): for a positive `limit`, `GetEmoteAdded` returns at most `limit` records, all of them
rows of the table with the given channel, the given reward type and change type `Add`,
ordered by update time descending.  After one or more calls of `CreateEmoteAdd` for the
channel and reward type with change type `Add`, the last of them at an instant later than
those of the calls before it and of the matching rows already there, `GetEmoteAdded` with
limit 1 returns exactly the record appended by the last call, the last row of the table. -/
theorem getEmoteAdded_recent (db : Database) (channel : String) (addType : RewardType) :
    (∀ limit : Int, 0 < limit →
      ((GetEmoteAdded db channel addType limit).length : Int) ≤ limit ∧
      (∀ e ∈ GetEmoteAdded db channel addType limit,
        e ∈ db.emoteAdds ∧ e.ChannelTwitchID = channel ∧ e.Type_ = addType ∧
          e.ChangeType = EmoteChangeType.Add) ∧
      (GetEmoteAdded db channel addType limit).Sorted
        (fun a b => b.UpdatedAt ≤ a.UpdatedAt)) ∧
    (∀ (calls : List (String × Nat)) (last : String × Nat),
      (∀ t ∈ calls.map Prod.snd, t < last.2) →
      (∀ e ∈ db.emoteAdds, e.ChannelTwitchID = channel → e.Type_ = addType →
        e.ChangeType = EmoteChangeType.Add → e.UpdatedAt < last.2) →
      GetEmoteAdded (createEmoteAdds channel addType db (calls ++ [last])) channel addType 1 =
        [{ ID := nextID (createEmoteAdds channel addType db calls),
           CreatedAt := last.2, UpdatedAt := last.2, ChannelTwitchID := channel,
           Type_ := addType, ChangeType := EmoteChangeType.Add, EmoteID := last.1 }] ∧
      (createEmoteAdds channel addType db (calls ++ [last])).emoteAdds.getLast? =
        some { ID := nextID (createEmoteAdds channel addType db calls),
               CreatedAt := last.2, UpdatedAt := last.2, ChannelTwitchID := channel,
               Type_ := addType, ChangeType := EmoteChangeType.Add, EmoteID := last.1 }) := by
  refine ⟨?_, ?_⟩
  · intro limit hl
    have hlim : ∀ rows : List EmoteAdd, gormLimit limit rows = rows.take limit.toNat := by
      intro rows; simp [gormLimit, hl]
    unfold GetEmoteAdded
    rw [hlim]
    refine ⟨?_, ?_, ?_⟩
    · have h1 := List.length_take_le limit.toNat
        (orderByUpdatedAtDesc (db.emoteAdds.filter (fun e =>
          decide (e.ChannelTwitchID = channel) && decide (e.Type_ = addType) &&
            decide (e.ChangeType = EMOTE_ADD_ADD))))
      have h2 : ((limit.toNat : Nat) : Int) = limit := Int.toNat_of_nonneg (le_of_lt hl)
      omega
    · intro e he
      have h1 := List.mem_of_mem_take he
      unfold orderByUpdatedAtDesc at h1
      rw [List.mem_insertionSort, List.mem_filter] at h1
      simpa [EMOTE_ADD_ADD, and_assoc] using h1
    · exact (sorted_byUpdatedAtDesc _).sublist (List.take_sublist _ _)
  · intro calls last hcalls hold
    rw [createEmoteAdds_append]
    refine ⟨?_, ?_⟩
    · have hnew : ∀ y ∈ (createEmoteAdds channel addType db calls).emoteAdds,
          y.ChannelTwitchID = channel → y.Type_ = addType →
          y.ChangeType = EmoteChangeType.Add → y.UpdatedAt < last.2 := by
        intro y hy hc ht ha
        rcases mem_createEmoteAdds channel addType calls db y hy with h | h
        · exact hold y h hc ht ha
        · exact hcalls _ h
      unfold GetEmoteAdded CreateEmoteAdd
      simp only [List.filter_append, EMOTE_ADD_ADD, List.filter_cons, List.filter_nil,
        decide_True, Bool.and_self, if_true]
      unfold orderByUpdatedAtDesc
      rw [insertionSort_append_newest]
      · simp [gormLimit]
      · intro y hy
        rw [List.mem_filter] at hy
        simp only [Bool.and_eq_true, decide_eq_true_eq] at hy
        exact hnew y hy.1 hy.2.1.1 hy.2.1.2 hy.2.2
    · simp [CreateEmoteAdd, EMOTE_ADD_ADD]
/-- C10 (amended) at a concrete input: three more additions to channel `c1` of the sample table. -/
theorem getEmoteAdded_recent_witness :
    (∀ t ∈ [("e6", 201), ("e7", 202)].map Prod.snd, t < (("e8", 203) : String × Nat).2) ∧
    (∀ e ∈ sampleDb.emoteAdds, e.ChannelTwitchID = "c1" → e.Type_ = RewardType.Seventv →
      e.ChangeType = EmoteChangeType.Add → e.UpdatedAt < (("e8", 203) : String × Nat).2) ∧
    GetEmoteAdded
        (createEmoteAdds "c1" RewardType.Seventv sampleDb
          ([("e6", 201), ("e7", 202)] ++ [("e8", 203)])) "c1" RewardType.Seventv 1 =
      [{ ID := 10, CreatedAt := 203, UpdatedAt := 203, ChannelTwitchID := "c1",
         Type_ := RewardType.Seventv, ChangeType := EmoteChangeType.Add, EmoteID := "e8" }] :=
  ⟨by decide, by decide,
    ((getEmoteAdded_recent sampleDb "c1" RewardType.Seventv).2 [("e6", 201), ("e7", 202)]
      ("e8", 203) (by decide) (by decide)).1⟩

end Gempbot
